import Mathlib

/-!
Verification of the ghostty VT terminal engine (include/ghostty/vt/terminal.h).

The repository ships only the C declaration surface; the engine behind it is
not part of the given sources.  Following the specification document, the
engine is modelled here as an executable shallow embedding: a byte/UTF-8
decoder with pending state, the VT escape-sequence state machine, the SGR
attribute resolver, the screen buffer with cursor, scroll region, alternate
screen, scrollback store and per-row dirty tracker.  Every definition whose
body is not determined by the header is marked `Modelled from the spec:`.
-/

namespace GhosttyVT

/-- RGB triple, components 0-255 (matches fg_r/fg_g/fg_b and bg_r/bg_g/bg_b
of GhosttyCell). -/
abbrev Rgb : Type := Nat × Nat × Nat

/-- GhosttyCell from terminal.h: codepoint (0 = empty), resolved foreground
and background RGB, style flag bits (GHOSTTY_CELL_*), width class
(0 = combining, 1 = normal, 2 = wide). -/
structure Cell where
  codepoint : Nat
  fg : Rgb
  bg : Rgb
  flags : Nat
  width : Nat
deriving DecidableEq, Repr

/-- Modelled from the spec: the "pen" (current attribute state) carried
across prints until changed by SGR.  `none` colors mean "default",
resolved to the terminal's configured default colors at cell-write time. -/
structure Pen where
  fg : Option Rgb
  bg : Option Rgb
  bold : Bool
  italic : Bool
  underline : Bool
  strike : Bool
  inverse : Bool
  invisible : Bool
  blink : Bool
  faint : Bool
deriving DecidableEq, Repr

/-- The pen with no style flags set and default colors (state after SGR 0). -/
def penDefault : Pen :=
  { fg := none, bg := none, bold := false, italic := false, underline := false,
    strike := false, inverse := false, invisible := false, blink := false,
    faint := false }

/-- Pack the pen's style booleans into the GHOSTTY_CELL_* flag bits. -/
def flagBits (p : Pen) : Nat :=
  (if p.bold then 1 else 0) + (if p.italic then 2 else 0) +
  (if p.underline then 4 else 0) + (if p.strike then 8 else 0) +
  (if p.inverse then 16 else 0) + (if p.invisible then 32 else 0) +
  (if p.blink then 64 else 0) + (if p.faint then 128 else 0)

/-- Modelled from the spec: resolve the pen against the configured default
colors, producing the cell stored in the grid for a printed codepoint. -/
def resolveCell (p : Pen) (dFg dBg : Rgb) (cp w : Nat) : Cell :=
  { codepoint := cp, fg := p.fg.getD dFg, bg := p.bg.getD dBg,
    flags := flagBits p, width := w }

/-- Cursor state: position, visibility, deferred-autowrap flag. -/
structure Cursor where
  x : Nat
  y : Nat
  visible : Bool
  pendingWrap : Bool
deriving DecidableEq, Repr

/-- Parser state-machine nodes, per the spec's VT/ANSI state list. -/
inductive PState where
  | ground
  | escape
  | csiEntry
  | csiParam
  | csiIntermediate
  | csiIgnore
  | oscString
  | dcsEntry
  | dcsPassthrough
  | dcsIgnore
  | sosPmApc
deriving DecidableEq, Repr

/-- Parser accumulator: current node, ordered numeric parameters (none =
omitted, defaulted at dispatch per final-byte semantics), intermediate
bytes, private-marker flag, OSC payload buffer, and whether an OSC payload
is awaiting the `ESC \x5c` form of ST. -/
structure PAcc where
  pstate : PState
  params : List (Option Nat)
  curParam : Option Nat
  inters : List Nat
  priv : Bool
  oscBuf : List Nat
  oscPend : Bool
deriving DecidableEq, Repr

/-- The Ground accumulator with everything cleared. -/
def paccGround : PAcc :=
  { pstate := .ground, params := [], curParam := none, inters := [],
    priv := false, oscBuf := [], oscPend := false }

/-- A logical input unit produced by the byte/UTF-8 decoder: a raw control
byte (0x00-0x1F, 0x7F) passed through verbatim, or a decoded scalar value. -/
inductive VtUnit where
  | control (b : Nat)
  | scalar (cp : Nat)
deriving DecidableEq, Repr

/-- Expected total length of a UTF-8 sequence from its lead byte
(0 = not a valid lead byte). -/
def leadLen (b : Nat) : Nat :=
  if 0xC2 ≤ b ∧ b ≤ 0xDF then 2
  else if 0xE0 ≤ b ∧ b ≤ 0xEF then 3
  else if 0xF0 ≤ b ∧ b ≤ 0xF4 then 4
  else 0

/-- Raw scalar value of a complete UTF-8 byte sequence. -/
def utf8Decode (bs : List Nat) : Nat :=
  match bs with
  | [a, b] => (a - 0xC0) * 64 + (b - 0x80)
  | [a, b, c] => (a - 0xE0) * 4096 + (b - 0x80) * 64 + (c - 0x80)
  | [a, b, c, d] =>
      (a - 0xF0) * 262144 + (b - 0x80) * 4096 + (c - 0x80) * 64 + (d - 0x80)
  | _ => 0xFFFD

/-- Scalar value of a complete UTF-8 sequence, with surrogate and
out-of-range values replaced by U+FFFD. -/
def utf8Val (bs : List Nat) : Nat :=
  let v := utf8Decode bs
  if 0xD800 ≤ v ∧ v ≤ 0xDFFF then 0xFFFD
  else if 0x10FFFF < v then 0xFFFD else v

/-- Decode one byte arriving with no pending multi-byte sequence. -/
def utf8Fresh (b : Nat) : List VtUnit × List Nat :=
  if b < 0x20 ∨ b = 0x7F then ([.control b], [])
  else if b < 0x80 then ([.scalar b], [])
  else if leadLen b ≠ 0 then ([], [b])
  else ([.scalar 0xFFFD], [])

/-- Modelled from the spec: the byte/UTF-8 decoder step.  Incomplete trailing
bytes are retained as pending state across write boundaries; an invalid
continuation forces emission of a replacement character and the offending
byte is then reprocessed fresh (resynchronization); decoding is total. -/
def utf8Step (pending : List Nat) (b : Nat) : List VtUnit × List Nat :=
  match pending with
  | [] => utf8Fresh b
  | p :: ps =>
    if 0x80 ≤ b ∧ b ≤ 0xBF then
      let acc := p :: (ps ++ [b])
      if leadLen p ≤ acc.length then ([.scalar (utf8Val acc)], [])
      else ([], acc)
    else
      let r := utf8Fresh b
      (.scalar 0xFFFD :: r.1, r.2)

/-- Dispatch actions observable by the screen buffer (tagged variant, as the
spec's design notes prescribe). -/
inductive Action where
  | print (cp : Nat)
  | execute (b : Nat)
  | csi (priv : Bool) (params : List (Option Nat)) (inters : List Nat) (fin : Nat)
  | osc (payload : List Nat)
  | esc (inters : List Nat) (fin : Nat)
deriving DecidableEq, Repr

/-- Escape-state handling of a decoded scalar. -/
def escScalar (a : PAcc) (c : Nat) : PAcc × List Action :=
  if c = 0x5B then ({ paccGround with pstate := .csiEntry }, [])
  else if c = 0x5D then ({ paccGround with pstate := .oscString }, [])
  else if c = 0x50 then ({ paccGround with pstate := .dcsEntry }, [])
  else if c = 0x58 ∨ c = 0x5E ∨ c = 0x5F then
    ({ paccGround with pstate := .sosPmApc }, [])
  else if 0x20 ≤ c ∧ c ≤ 0x2F then ({ a with inters := a.inters ++ [c] }, [])
  else if 0x30 ≤ c ∧ c ≤ 0x7E then (paccGround, [.esc a.inters c])
  else (paccGround, [])

/-- CSI-Entry / CSI-Param handling of a decoded scalar. -/
def csiScalar (a : PAcc) (c : Nat) (entry : Bool) : PAcc × List Action :=
  if 0x30 ≤ c ∧ c ≤ 0x39 then
    ({ a with
        pstate := .csiParam
        curParam := some ((a.curParam.getD 0) * 10 + (c - 0x30)) }, [])
  else if c = 0x3B then
    ({ a with
        pstate := .csiParam
        params := a.params ++ [a.curParam]
        curParam := none }, [])
  else if 0x3C ≤ c ∧ c ≤ 0x3F then
    if entry then ({ a with pstate := .csiParam, priv := true }, [])
    else ({ a with pstate := .csiIgnore }, [])
  else if 0x20 ≤ c ∧ c ≤ 0x2F then
    ({ a with pstate := .csiIntermediate, inters := a.inters ++ [c] }, [])
  else if 0x40 ≤ c ∧ c ≤ 0x7E then
    (paccGround, [.csi a.priv (a.params ++ [a.curParam]) a.inters c])
  else (paccGround, [])

/-- CSI-Intermediate handling of a decoded scalar. -/
def csiInterScalar (a : PAcc) (c : Nat) : PAcc × List Action :=
  if 0x20 ≤ c ∧ c ≤ 0x2F then ({ a with inters := a.inters ++ [c] }, [])
  else if 0x30 ≤ c ∧ c ≤ 0x3F then ({ a with pstate := .csiIgnore }, [])
  else if 0x40 ≤ c ∧ c ≤ 0x7E then
    (paccGround, [.csi a.priv (a.params ++ [a.curParam]) a.inters c])
  else (paccGround, [])

/-- Modelled from the spec: one step of the escape-sequence state machine.
Any control byte received while accumulating a sequence (except the
expected terminators) aborts the sequence and re-dispatches the control in
Ground; malformed bytes reset to Ground; the parser never fails. -/
def parserStep (a : PAcc) (u : VtUnit) : PAcc × List Action :=
  match u with
  | .control b =>
    if b = 0x1B then
      match a.pstate with
      | .oscString => ({ a with pstate := .escape, inters := [], oscPend := true }, [])
      | _ => ({ paccGround with pstate := .escape }, [])
    else
      match a.pstate with
      | .ground => (a, [.execute b])
      | .oscString =>
          if b = 0x07 then (paccGround, [.osc a.oscBuf])
          else (paccGround, [.execute b])
      | _ => (paccGround, [.execute b])
  | .scalar c =>
    match a.pstate with
    | .ground => (a, [.print c])
    | .escape =>
        if a.oscPend then
          if c = 0x5C then (paccGround, [.osc a.oscBuf])
          else escScalar { a with oscPend := false, oscBuf := [] } c
        else escScalar a c
    | .csiEntry => csiScalar a c true
    | .csiParam => csiScalar a c false
    | .csiIntermediate => csiInterScalar a c
    | .csiIgnore =>
        if 0x40 ≤ c ∧ c ≤ 0x7E then (paccGround, []) else (a, [])
    | .oscString => ({ a with oscBuf := a.oscBuf ++ [c] }, [])
    | .dcsEntry =>
        ({ a with pstate := .dcsPassthrough }, [])
    | .dcsPassthrough => (a, [])
    | .dcsIgnore => (a, [])
    | .sosPmApc => (a, [])

/-- Build the list `[f 0, f 1, ..., f (n-1)]`.  All grid and dirty-bitmap
constructions go through this single combinator. -/
def tabulate (n : Nat) (f : Nat → α) : List α :=
  (List.range n).map f

/-- Modelled from the spec: the 256-entry color palette (16 ANSI + 216 cube +
24 grayscale); index 1 (red) resolves to 0xFF0000 as the spec's example
permits. -/
def palette (n : Nat) : Rgb :=
  if n < 16 then
    (List.getD
      [((0 : Nat), (0 : Nat), (0 : Nat)), (255, 0, 0), (0, 255, 0), (255, 255, 0),
       (0, 0, 255), (255, 0, 255), (0, 255, 255), (229, 229, 229),
       (127, 127, 127), (255, 102, 102), (102, 255, 102), (255, 255, 102),
       (102, 102, 255), (255, 102, 255), (102, 255, 255), (255, 255, 255)]
      n (0, 0, 0))
  else if n < 232 then
    let m := n - 16
    let comp := fun (c : Nat) => if c = 0 then 0 else 55 + 40 * c
    (comp (m / 36), comp ((m / 6) % 6), comp (m % 6))
  else if n < 256 then
    let g := 8 + 10 * (n - 232)
    (g, g, g)
  else (0, 0, 0)

/-- A simple (single-parameter) SGR effect on the pen: reset-all on 0,
style set/reset pairs, 16-color foreground/background selection; unknown
parameters are ignored, not fatal. -/
def sgrSimple (k : Nat) (p : Pen) : Pen :=
  if k = 0 then penDefault
  else if k = 1 then { p with bold := true }
  else if k = 2 then { p with faint := true }
  else if k = 3 then { p with italic := true }
  else if k = 4 then { p with underline := true }
  else if k = 5 then { p with blink := true }
  else if k = 7 then { p with inverse := true }
  else if k = 8 then { p with invisible := true }
  else if k = 9 then { p with strike := true }
  else if k = 22 then { p with bold := false, faint := false }
  else if k = 23 then { p with italic := false }
  else if k = 24 then { p with underline := false }
  else if k = 25 then { p with blink := false }
  else if k = 27 then { p with inverse := false }
  else if k = 28 then { p with invisible := false }
  else if k = 29 then { p with strike := false }
  else if 30 ≤ k ∧ k ≤ 37 then { p with fg := some (palette (k - 30)) }
  else if k = 39 then { p with fg := none }
  else if 40 ≤ k ∧ k ≤ 47 then { p with bg := some (palette (k - 40)) }
  else if k = 49 then { p with bg := none }
  else if 90 ≤ k ∧ k ≤ 97 then { p with fg := some (palette (k - 90 + 8)) }
  else if 100 ≤ k ∧ k ≤ 107 then { p with bg := some (palette (k - 100 + 8)) }
  else p

/-- Modelled from the spec: ordered application of SGR parameters to the pen
(reset-all on 0/empty, style set/reset pairs, 16/256/truecolor foreground
and background via 38/48 extended forms, unknown parameters ignored). -/
def applySGR : List (Option Nat) → Pen → Pen
  | [], p => p
  | q :: rest, p =>
    let k := q.getD 0
    if k = 38 ∨ k = 48 then
      match rest with
      | some 5 :: some n :: r2 =>
          applySGR r2 (if k = 38 then { p with fg := some (palette n) }
                       else { p with bg := some (palette n) })
      | some 2 :: some rr :: some gg :: some bb :: r2 =>
          applySGR r2 (if k = 38 then { p with fg := some (rr % 256, gg % 256, bb % 256) }
                       else { p with bg := some (rr % 256, gg % 256, bb % 256) })
      | r0 => applySGR r0 p
    else applySGR rest (sgrSimple k p)

/-- GhosttyTerminalConfig from terminal.h: scrollback limit (0 = unlimited,
default 10000) and initial fg/bg colors (0xRRGGBB, 0 = use default). -/
structure Config where
  scrollback_limit : Nat
  fg_color : Nat
  bg_color : Nat
deriving DecidableEq, Repr

/-- Default configuration documented by ghostty_terminal_new: 10,000 line
scrollback, default colors. -/
def defaultConfig : Config := { scrollback_limit := 10000, fg_color := 0, bg_color := 0 }

/-- Split a packed 0xRRGGBB color into an RGB triple. -/
def rgbOf (c : Nat) : Rgb := ((c / 65536) % 256, (c / 256) % 256, c % 256)

/-- An empty cell with the given resolved default colors (codepoint 0). -/
def emptyCellD (fg bg : Rgb) : Cell :=
  { codepoint := 0, fg := fg, bg := bg, flags := 0, width := 1 }

/-- Modelled from the spec: the whole terminal engine state — configuration,
primary and alternate grids, cursor contexts, pen, scroll region, modes,
scrollback store, dirty bitmap, parser state and decoder pending bytes. -/
structure Term where
  cols : Nat
  rows : Nat
  defFg : Rgb
  defBg : Rgb
  scrollLimit : Nat
  grid : List (List Cell)
  altGrid : List (List Cell)
  inAlt : Bool
  cur : Cursor
  savedPrim : Cursor × Pen
  savedCur : Option (Cursor × Pen)
  pen : Pen
  regTop : Nat
  regBottom : Nat
  autowrap : Bool
  scrollback : List (List Cell)
  dirty : List Bool
  pacc : PAcc
  pending : List Nat
deriving DecidableEq

/-- The currently active grid (alternate when the alternate screen is on). -/
def activeGrid (t : Term) : List (List Cell) :=
  if t.inAlt then t.altGrid else t.grid

/-- Replace the currently active grid. -/
def setActiveGrid (t : Term) (g : List (List Cell)) : Term :=
  if t.inAlt then { t with altGrid := g } else { t with grid := g }

/-- Row `y` of the visible screen (empty list when out of range). -/
def visRow (t : Term) (y : Nat) : List Cell :=
  (activeGrid t).getD y []

/-- Cell at `(y, x)` of the visible screen, empty-with-defaults when absent. -/
def cellAt (t : Term) (y x : Nat) : Cell :=
  (visRow t y).getD x (emptyCellD t.defFg t.defBg)

/-- Dirty flag of row `y`. -/
def rowDirty (t : Term) (y : Nat) : Bool :=
  t.dirty.getD y false

/-- The single mutation combinator for grid plus dirty bitmap: rows with
`marks i = true` are replaced by `f i` of the old row and flagged dirty;
all other rows (and their dirty flags) are untouched. -/
def updGrid (t : Term) (marks : Nat → Bool) (f : Nat → List Cell → List Cell) : Term :=
  let g := activeGrid t
  let g' := tabulate g.length (fun i => if marks i then f i (g.getD i []) else g.getD i [])
  let d' := tabulate t.dirty.length (fun i => t.dirty.getD i false || marks i)
  setActiveGrid { t with dirty := d' } g'

/-- Modelled from the spec: FIFO scrollback push with capacity `limit`
(0 = unbounded); at capacity the oldest rows are dropped. -/
def pushSB (limit : Nat) (sb : List (List Cell)) (row : List Cell) : List (List Cell) :=
  let sb' := sb ++ [row]
  if limit = 0 then sb' else sb'.drop (sb'.length - limit)

/-- A blank row of `cols` cells cleared to the pen's background (spec: freed
and erased cells are cleared with the current background color). -/
def blankRowPen (t : Term) : List Cell :=
  tabulate t.cols (fun _ => emptyCellD t.defFg (t.pen.bg.getD t.defBg))

/-- A blank grid with default colors. -/
def mkBlankGrid (rows cols : Nat) (fg bg : Rgb) : List (List Cell) :=
  tabulate rows (fun _ => tabulate cols (fun _ => emptyCellD fg bg))

/-- The blank grid the alternate screen starts with. -/
def blankGrid (t : Term) : List (List Cell) :=
  mkBlankGrid t.rows t.cols t.defFg t.defBg

/-- Mark every row dirty (used when the whole visible screen changes). -/
def markAllDirty (t : Term) : Term :=
  { t with dirty := List.replicate t.dirty.length true }

/-- Modelled from the spec: scroll the region up one row; the row leaving the
region top is appended to scrollback only when the region's top is the true
top and the primary buffer is active; the freed bottom row is cleared with
the current background; all region rows are marked dirty. -/
def scrollUpOne (t : Term) : Term :=
  let g := activeGrid t
  let t1 :=
    if t.regTop = 0 ∧ t.inAlt = false then
      { t with scrollback := pushSB t.scrollLimit t.scrollback (g.getD 0 []) }
    else t
  updGrid t1 (fun i => decide (t.regTop ≤ i ∧ i ≤ t.regBottom))
    (fun i _ => if i = t.regBottom then blankRowPen t else g.getD (i + 1) [])

/-- Scroll the region down one row (reverse index at the region top). -/
def scrollDownOne (t : Term) : Term :=
  let g := activeGrid t
  updGrid t (fun i => decide (t.regTop ≤ i ∧ i ≤ t.regBottom))
    (fun i _ => if i = t.regTop then blankRowPen t else g.getD (i - 1) [])

/-- Line feed: below the region bottom the cursor just moves down (clamped);
at the region bottom the region scrolls up. -/
def lineFeed (t : Term) : Term :=
  let t0 := { t with cur := { t.cur with pendingWrap := false } }
  if t0.cur.y = t0.regBottom then scrollUpOne t0
  else if t0.cur.y + 1 < t0.rows then { t0 with cur := { t0.cur with y := t0.cur.y + 1 } }
  else t0

/-- Reverse index: at the region top the region scrolls down. -/
def reverseIndex (t : Term) : Term :=
  if t.cur.y = t.regTop then scrollDownOne t
  else if 0 < t.cur.y then { t with cur := { t.cur with y := t.cur.y - 1 } }
  else t

/-- Character width class: 0 = combining, 2 = wide (representative East
Asian ranges), 1 otherwise. -/
def charWidth (cp : Nat) : Nat :=
  if (0x300 ≤ cp ∧ cp ≤ 0x36F) ∨ cp = 0x200D ∨ cp = 0xFE0F then 0
  else if (0x1100 ≤ cp ∧ cp ≤ 0x115F) ∨ (0x2E80 ≤ cp ∧ cp ≤ 0x303E) ∨
          (0x3041 ≤ cp ∧ cp ≤ 0x33FF) ∨ (0x3400 ≤ cp ∧ cp ≤ 0x4DBF) ∨
          (0x4E00 ≤ cp ∧ cp ≤ 0x9FFF) ∨ (0xAC00 ≤ cp ∧ cp ≤ 0xD7A3) ∨
          (0xF900 ≤ cp ∧ cp ≤ 0xFAFF) ∨ (0xFF00 ≤ cp ∧ cp ≤ 0xFF60) ∨
          (0x20000 ≤ cp ∧ cp ≤ 0x2FFFD) then 2
  else 1

/-- Continuation placeholder behind a wide glyph (width 0, not independently
addressable as primary content). -/
def spacerCell (t : Term) : Cell :=
  { codepoint := 0, fg := t.defFg, bg := t.pen.bg.getD t.defBg, flags := 0, width := 0 }

/-- Resolve a deferred autowrap: if the pending-wrap flag is set and autowrap
is enabled, wrap to column 0 of the next line before printing. -/
def wrapIfPending (t : Term) : Term :=
  if t.cur.pendingWrap && t.autowrap then
    lineFeed { t with cur := { t.cur with x := 0, pendingWrap := false } }
  else t

/-- A wide glyph that does not fit before the right margin moves to the start
of the next row (no split glyph across the margin). -/
def wrapIfWide (w : Nat) (t : Term) : Term :=
  if decide (w = 2) && decide (t.cols ≤ t.cur.x + 1) && (decide (0 < t.cur.x) && t.autowrap) then
    lineFeed { t with cur := { t.cur with x := 0, pendingWrap := false } }
  else t

/-- Write the glyph (and its continuation spacer when wide) at the cursor. -/
def placeGlyph (cp w : Nat) (t : Term) : Term :=
  let c := resolveCell t.pen t.defFg t.defBg cp w
  updGrid t (fun i => decide (i = t.cur.y))
    (fun _ row =>
      if w = 2 then (row.set t.cur.x c).set (t.cur.x + 1) (spacerCell t)
      else row.set t.cur.x c)

/-- Advance the cursor after a print; reaching the right margin sets the
deferred pending-wrap flag instead of wrapping immediately. -/
def advanceCursor (w : Nat) (t : Term) : Term :=
  if t.cols ≤ t.cur.x + w then
    { t with cur := { t.cur with x := t.cols - 1, pendingWrap := true } }
  else { t with cur := { t.cur with x := t.cur.x + w, pendingWrap := false } }

/-- Modelled from the spec: print dispatch — resolve deferred wrap, place the
glyph with the current pen, advance the cursor; combining marks merge onto
the previous cell's display (the row is marked dirty, no new column). -/
def applyPrint (t : Term) (cp : Nat) : Term :=
  let w := charWidth cp
  if w = 0 then
    updGrid t (fun i => decide (i = t.cur.y)) (fun _ row => row)
  else
    advanceCursor w (placeGlyph cp w (wrapIfWide w (wrapIfPending t)))

/-- Modelled from the spec: C0 control execution (LF/VT/FF, CR, BS, TAB;
BEL and the rest have no screen effect). -/
def applyExecute (t : Term) (b : Nat) : Term :=
  if b = 0x0A ∨ b = 0x0B ∨ b = 0x0C then lineFeed t
  else if b = 0x0D then { t with cur := { t.cur with x := 0, pendingWrap := false } }
  else if b = 0x08 then { t with cur := { t.cur with x := t.cur.x - 1, pendingWrap := false } }
  else if b = 0x09 then
    { t with cur :=
        { t.cur with
            x := min ((t.cur.x / 8 + 1) * 8) (t.cols - 1)
            pendingWrap := false } }
  else t

/-- Move the cursor to a clamped absolute position, clearing pending wrap. -/
def setCur (t : Term) (x y : Nat) : Term :=
  { t with cur :=
      { t.cur with
          x := min x (t.cols - 1)
          y := min y (t.rows - 1)
          pendingWrap := false } }

/-- Parameter `i` of a CSI parameter list with default `d` for omitted ones. -/
def pArg (ps : List (Option Nat)) (i d : Nat) : Nat :=
  (ps.getD i none).getD d

/-- Parameter `i`, defaulting to 1 and treating 0 as 1 (cursor-move count). -/
def pArg1 (ps : List (Option Nat)) (i : Nat) : Nat :=
  let v := pArg ps i 1
  if v = 0 then 1 else v

/-- Erase cells `lo..hi` of a row to the pen's background. -/
def rowEraseRange (t : Term) (row : List Cell) (lo hi : Nat) : List Cell :=
  tabulate t.cols (fun x =>
    if lo ≤ x ∧ x ≤ hi then emptyCellD t.defFg (t.pen.bg.getD t.defBg)
    else row.getD x (emptyCellD t.defFg (t.pen.bg.getD t.defBg)))

/-- Erase-in-line: 0 = cursor to end, 1 = start to cursor, 2 = whole line. -/
def eraseLine (t : Term) (k : Nat) : Term :=
  let lo := if k = 1 ∨ k = 2 then 0 else t.cur.x
  let hi := if k = 1 then t.cur.x else t.cols - 1
  updGrid t (fun i => decide (i = t.cur.y)) (fun _ row => rowEraseRange t row lo hi)

/-- Erase-in-display: 0 = cursor to end, 1 = start to cursor, 2/3 = all;
never touches scrollback. -/
def eraseDisplay (t : Term) (k : Nat) : Term :=
  if k = 0 then
    updGrid t (fun i => decide (t.cur.y ≤ i))
      (fun i row => if i = t.cur.y then rowEraseRange t row t.cur.x (t.cols - 1)
                    else blankRowPen t)
  else if k = 1 then
    updGrid t (fun i => decide (i ≤ t.cur.y))
      (fun i row => if i = t.cur.y then rowEraseRange t row 0 t.cur.x
                    else blankRowPen t)
  else if k = 2 ∨ k = 3 then
    updGrid t (fun _ => true) (fun _ _ => blankRowPen t)
  else t

/-- Modelled from the spec: entering the alternate screen (DEC private mode
1049) saves the primary cursor and pen, switches the active grid to a blank
alternate grid and homes the cursor; a second enter is a no-op. -/
def enterAlt (t : Term) : Term :=
  if t.inAlt then t
  else
    markAllDirty
      { t with
          savedPrim := (t.cur, t.pen)
          inAlt := true
          altGrid := blankGrid t
          cur := { x := 0, y := 0, visible := t.cur.visible, pendingWrap := false } }

/-- Modelled from the spec: leaving the alternate screen restores the primary
grid, cursor and pen exactly as left; a leave while on the primary screen is
a no-op. -/
def leaveAlt (t : Term) : Term :=
  if t.inAlt then
    markAllDirty
      { t with inAlt := false, cur := t.savedPrim.1, pen := t.savedPrim.2 }
  else t

/-- DEC private mode set/reset: 7 = autowrap, 25 = cursor visibility,
1049 = alternate screen; others ignored. -/
def setMode (t : Term) (n : Nat) (v : Bool) : Term :=
  if n = 7 then { t with autowrap := v }
  else if n = 25 then { t with cur := { t.cur with visible := v } }
  else if n = 1049 then (if v then enterAlt t else leaveAlt t)
  else t

/-- DECSTBM: set the scroll region (1-based inclusive bounds, validated),
homing the cursor; invalid bounds are ignored. -/
def setRegion (t : Term) (topP botP : Nat) : Term :=
  if 1 ≤ topP ∧ topP < botP ∧ botP ≤ t.rows then
    setCur { t with regTop := topP - 1, regBottom := botP - 1 } 0 0
  else t

/-- Modelled from the spec: CSI dispatch — cursor movement, erase in
line/display, scroll-region set, SGR, DEC private mode set/reset; unknown
finals and sequences with intermediates are ignored. -/
def applyCSI (t : Term) (priv : Bool) (ps : List (Option Nat)) (inters : List Nat)
    (fin : Nat) : Term :=
  if inters ≠ [] then t
  else if priv then
    if fin = 0x68 then ps.foldl (fun u q => setMode u (q.getD 0) true) t
    else if fin = 0x6C then ps.foldl (fun u q => setMode u (q.getD 0) false) t
    else t
  else if fin = 0x6D then { t with pen := applySGR ps t.pen }
  else if fin = 0x48 ∨ fin = 0x66 then setCur t (pArg1 ps 1 - 1) (pArg1 ps 0 - 1)
  else if fin = 0x41 then setCur t t.cur.x (t.cur.y - pArg1 ps 0)
  else if fin = 0x42 then setCur t t.cur.x (t.cur.y + pArg1 ps 0)
  else if fin = 0x43 then setCur t (t.cur.x + pArg1 ps 0) t.cur.y
  else if fin = 0x44 then setCur t (t.cur.x - pArg1 ps 0) t.cur.y
  else if fin = 0x47 then setCur t (pArg1 ps 0 - 1) t.cur.y
  else if fin = 0x64 then setCur t t.cur.x (pArg1 ps 0 - 1)
  else if fin = 0x4A then eraseDisplay t (pArg ps 0 0)
  else if fin = 0x4B then eraseLine t (pArg ps 0 0)
  else if fin = 0x72 then setRegion t (pArg ps 0 1) (pArg ps 1 t.rows)
  else t

/-- Modelled from the spec: bare-escape dispatch — DECSC/DECRC save/restore
cursor, index, reverse index, next line; charset selection and the rest are
bookkeeping no-ops. -/
def applyEsc (t : Term) (inters : List Nat) (fin : Nat) : Term :=
  if inters ≠ [] then t
  else if fin = 0x37 then { t with savedCur := some (t.cur, t.pen) }
  else if fin = 0x38 then
    match t.savedCur with
    | some (c, p) => { t with cur := c, pen := p }
    | none => t
  else if fin = 0x44 then lineFeed t
  else if fin = 0x4D then reverseIndex t
  else if fin = 0x45 then lineFeed { t with cur := { t.cur with x := 0 } }
  else t

/-- Modelled from the spec: OSC dispatch (titles, palette redefinition) is
tracked per instance and not externally surfaced by this core; it has no
effect on grid, cursor or attribute state. -/
def applyOsc (t : Term) (_payload : List Nat) : Term := t

/-- Screen-buffer dispatch of one parser action. -/
def applyAction (t : Term) (a : Action) : Term :=
  match a with
  | .print cp => applyPrint t cp
  | .execute b => applyExecute t b
  | .csi priv ps inters fin => applyCSI t priv ps inters fin
  | .osc payload => applyOsc t payload
  | .esc inters fin => applyEsc t inters fin

/-- Feed one decoded unit through the parser and dispatch its actions. -/
def applyUnit (t : Term) (u : VtUnit) : Term :=
  let r := parserStep t.pacc u
  r.2.foldl applyAction { t with pacc := r.1 }

/-- Feed one raw byte: decoder step, then parser/dispatch for each unit. -/
def stepByte (t : Term) (b : Nat) : Term :=
  let r := utf8Step t.pending b
  r.1.foldl applyUnit { t with pending := r.2 }

/-- ghostty_terminal_write on the engine: parse and dispatch every byte,
carrying decoder and parser state across write boundaries. -/
def writeBytes (t : Term) (bs : List Nat) : Term :=
  bs.foldl stepByte t

/-- ghostty_terminal_new_with_config on the engine: cols/rows clamped to
minimum 1; color 0 means the built-in default; the scrollback limit is taken
from the configuration verbatim (0 = unbounded). -/
def termNewWithConfig (cols rows : Nat) (cfg : Config) : Term :=
  let c := max 1 cols
  let r := max 1 rows
  let fg := if cfg.fg_color = 0 then ((255 : Nat), (255 : Nat), (255 : Nat)) else rgbOf cfg.fg_color
  let bg := if cfg.bg_color = 0 then ((0 : Nat), (0 : Nat), (0 : Nat)) else rgbOf cfg.bg_color
  { cols := c, rows := r, defFg := fg, defBg := bg,
    scrollLimit := cfg.scrollback_limit,
    grid := mkBlankGrid r c fg bg, altGrid := mkBlankGrid r c fg bg,
    inAlt := false,
    cur := { x := 0, y := 0, visible := true, pendingWrap := false },
    savedPrim := ({ x := 0, y := 0, visible := true, pendingWrap := false }, penDefault),
    savedCur := none, pen := penDefault,
    regTop := 0, regBottom := r - 1, autowrap := true,
    scrollback := [], dirty := List.replicate r false,
    pacc := paccGround, pending := [] }

/-- ghostty_terminal_new on the engine: default configuration. -/
def termNew (cols rows : Nat) : Term := termNewWithConfig cols rows defaultConfig

/-- ghostty_terminal_resize on the engine, per the spec's reflow policy:
rows preserved top-aligned, columns truncated or padded per row (no
rewrapping), cursor clamped into the new bounds, scroll region kept when
still valid and otherwise reset to full, overflow content dropped without
entering scrollback, dirty reset to all-dirty. -/
def resizeTerm (t : Term) (cols rows : Nat) : Term :=
  let c := max 1 cols
  let r := max 1 rows
  let pad := emptyCellD t.defFg t.defBg
  let rsRow := fun (row : List Cell) => tabulate c (fun x => row.getD x pad)
  let rsGrid := fun (g : List (List Cell)) => tabulate r (fun y => rsRow (g.getD y []))
  { t with
      cols := c, rows := r,
      grid := rsGrid t.grid, altGrid := rsGrid t.altGrid,
      cur :=
        { x := min t.cur.x (c - 1)
          y := min t.cur.y (r - 1)
          visible := t.cur.visible
          pendingWrap := false },
      regTop := if t.regTop ≤ t.regBottom ∧ t.regBottom < r then t.regTop else 0,
      regBottom := if t.regTop ≤ t.regBottom ∧ t.regBottom < r then t.regBottom else r - 1,
      dirty := List.replicate r true }

/-- Clear all dirty flags (ghostty_terminal_clear_dirty on the engine). -/
def clearDirtyT (t : Term) : Term :=
  { t with dirty := List.replicate t.dirty.length false }

/-- Exactly `cols` cells of visible row `y`, truncated or padded with empty
cells beyond buffer content. -/
def lineCells (t : Term) (y : Nat) : List Cell :=
  let row := visRow t y
  tabulate t.cols (fun x => row.getD x (emptyCellD t.defFg t.defBg))

/-!  The C API surface of terminal.h.  A `GhosttyTerminal` handle is an
`Option Term`: `none` is the NULL handle.  Return values follow the header's
documented contracts. -/

/-- ghostty_terminal_new: NULL (allocation failure) never arises in the model. -/
def ghostty_terminal_new (cols rows : Int) : Option Term :=
  some (termNew cols.toNat rows.toNat)

/-- ghostty_terminal_new_with_config (NULL config = defaults). -/
def ghostty_terminal_new_with_config (cols rows : Int) (cfg : Option Config) :
    Option Term :=
  some (termNewWithConfig cols.toNat rows.toNat (cfg.getD defaultConfig))

/-- ghostty_terminal_free: releases the instance; NULL is safe (no-op). -/
def ghostty_terminal_free (_t : Option Term) : Unit := ()

/-- ghostty_terminal_resize. -/
def ghostty_terminal_resize (t : Option Term) (cols rows : Int) : Option Term :=
  t.map (fun x => resizeTerm x cols.toNat rows.toNat)

/-- ghostty_terminal_write: parses VT sequences and updates the screen. -/
def ghostty_terminal_write (t : Option Term) (data : List Nat) : Option Term :=
  t.map (fun x => writeBytes x data)

/-- ghostty_terminal_get_cols: number of columns, or 0 if term is NULL. -/
def ghostty_terminal_get_cols (t : Option Term) : Int :=
  match t with
  | none => 0
  | some x => x.cols

/-- ghostty_terminal_get_rows: number of rows, or 0 if term is NULL. -/
def ghostty_terminal_get_rows (t : Option Term) : Int :=
  match t with
  | none => 0
  | some x => x.rows

/-- ghostty_terminal_get_cursor_x: column, or 0 if term is NULL. -/
def ghostty_terminal_get_cursor_x (t : Option Term) : Int :=
  match t with
  | none => 0
  | some x => x.cur.x

/-- ghostty_terminal_get_cursor_y: row, or 0 if term is NULL. -/
def ghostty_terminal_get_cursor_y (t : Option Term) : Int :=
  match t with
  | none => 0
  | some x => x.cur.y

/-- ghostty_terminal_get_cursor_visible. -/
def ghostty_terminal_get_cursor_visible (t : Option Term) : Bool :=
  match t with
  | none => false
  | some x => x.cur.visible

/-- ghostty_terminal_get_scrollback_length: lines of history, 0 if NULL. -/
def ghostty_terminal_get_scrollback_length (t : Option Term) : Int :=
  match t with
  | none => 0
  | some x => x.scrollback.length

/-- ghostty_terminal_get_line: the written cells and the return count —
exactly `cols` cells on success, (-1, nothing written) on error (NULL
handle, out-of-range row, or a buffer smaller than `cols`). -/
def ghostty_terminal_get_line (t : Option Term) (y : Int) (bufferSize : Nat) :
    Int × List Cell :=
  match t with
  | none => (-1, [])
  | some x =>
    if 0 ≤ y ∧ y.toNat < x.rows ∧ x.cols ≤ bufferSize then
      (x.cols, lineCells x y.toNat)
    else (-1, [])

/-- ghostty_terminal_get_scrollback_line, per the header: currently not
implemented — returns -1 (the error sentinel) and writes nothing. -/
def ghostty_terminal_get_scrollback_line (_t : Option Term) (_y : Int)
    (_bufferSize : Nat) : Int × List Cell :=
  (-1, [])

/-- ghostty_terminal_is_dirty: true when any row needs redrawing. -/
def ghostty_terminal_is_dirty (t : Option Term) : Bool :=
  match t with
  | none => false
  | some x => x.dirty.any id

/-- ghostty_terminal_is_row_dirty. -/
def ghostty_terminal_is_row_dirty (t : Option Term) (y : Int) : Bool :=
  match t with
  | none => false
  | some x => decide (0 ≤ y) && x.dirty.getD y.toNat false

/-- ghostty_terminal_clear_dirty. -/
def ghostty_terminal_clear_dirty (t : Option Term) : Option Term :=
  t.map clearDirtyT

/-- Well-formedness: both grids and the dirty bitmap have exactly `rows`
entries.  Constructed terminals satisfy it and every engine operation
preserves it. -/
def WF (t : Term) : Prop :=
  t.grid.length = t.rows ∧ t.altGrid.length = t.rows ∧ t.dirty.length = t.rows

/-- Dirty-coverage relation between a state and a later state: dirty flags
are monotone, and every visible row that changed is flagged dirty. -/
def Touches (t t' : Term) : Prop :=
  (∀ y, rowDirty t y = true → rowDirty t' y = true) ∧
  (∀ y, visRow t' y ≠ visRow t y → rowDirty t' y = true)

/-- Preservation contract of every engine mutation step: well-formedness and
dirty coverage are preserved, the scrollback limit is untouched, and the
scrollback either stays unchanged or ends within the (positive) limit. -/
def Pres (t t' : Term) : Prop :=
  (WF t → WF t' ∧ Touches t t') ∧
  t'.scrollLimit = t.scrollLimit ∧
  (t'.scrollback = t.scrollback ∨ (0 < t.scrollLimit → t'.scrollback.length ≤ t.scrollLimit))

/-- Preservation plus: the screen-dispatch layer never touches parser
accumulator or decoder pending state. -/
def HPres (t t' : Term) : Prop :=
  Pres t t' ∧ t'.pacc = t.pacc ∧ t'.pending = t.pending

theorem tabulate_length (n : Nat) (f : Nat → α) : (tabulate n f).length = n := by
  simp [tabulate]

theorem tabulate_getD (n : Nat) (f : Nat → α) (i : Nat) (d : α) :
    (tabulate n f).getD i d = if i < n then f i else d := by
  by_cases h : i < n
  · simp [tabulate, List.getD_eq_getElem?_getD, List.getElem?_map,
      List.getElem?_range h, h]
  · rw [List.getD_eq_default, if_neg h]
    simpa [tabulate_length] using Nat.le_of_not_lt h

theorem getD_replicate (n : Nat) (a d : α) (i : Nat) :
    (List.replicate n a).getD i d = if i < n then a else d := by
  simp only [List.getD_eq_getElem?_getD, List.getElem?_replicate]
  by_cases h : i < n <;> simp [h]

theorem pushSB_length_le {limit : Nat} (h : 0 < limit) (sb : List (List Cell))
    (row : List Cell) : (pushSB limit sb row).length ≤ limit := by
  unfold pushSB
  rw [if_neg (Nat.pos_iff_ne_zero.mp h)]
  simp only [List.length_drop, List.length_append, List.length_cons]
  omega

theorem foldl_pushSB {limit : Nat} (h : 0 < limit) :
    ∀ (rs : List (List Cell)) (sb : List (List Cell)), sb.length ≤ limit →
      List.foldl (pushSB limit) sb rs = (sb ++ rs).drop ((sb ++ rs).length - limit) := by
  intro rs
  induction rs with
  | nil =>
    intro sb hsb
    have : sb.length - limit = 0 := by omega
    simp [this]
  | cons r rest ih =>
    intro sb hsb
    rw [List.foldl_cons, ih (pushSB limit sb r) (pushSB_length_le h sb r)]
    have hpush : pushSB limit sb r = (sb ++ [r]).drop (sb.length + 1 - limit) := by
      unfold pushSB
      rw [if_neg (Nat.pos_iff_ne_zero.mp h)]
      simp
    rw [hpush]
    have hk : sb.length + 1 - limit ≤ (sb ++ [r]).length := by
      simp only [List.length_append, List.length_cons, List.length_nil]
      omega
    rw [← List.drop_append_of_le_length hk, List.drop_drop]
    have hEq : (sb ++ [r]) ++ rest = sb ++ r :: rest := by simp
    rw [hEq]
    congr 1
    simp only [List.length_append, List.length_drop, List.length_cons,
      List.length_nil]
    omega

theorem foldl_pushSB_zero :
    ∀ (rs : List (List Cell)) (sb : List (List Cell)),
      List.foldl (pushSB 0) sb rs = sb ++ rs := by
  intro rs
  induction rs with
  | nil => intro sb; simp
  | cons r rest ih =>
    intro sb
    rw [List.foldl_cons, ih]
    simp [pushSB]

theorem touches_refl (t : Term) : Touches t t :=
  ⟨fun _ h => h, fun y h => absurd rfl h⟩

theorem touches_trans {a b c : Term} (h1 : Touches a b) (h2 : Touches b c) :
    Touches a c := by
  refine ⟨fun y hy => h2.1 y (h1.1 y hy), fun y hy => ?_⟩
  by_cases hbc : visRow c y = visRow b y
  · exact h2.1 y (h1.2 y (fun hab => hy (hbc.trans hab)))
  · exact h2.2 y hbc

theorem pres_refl (t : Term) : Pres t t :=
  ⟨fun w => ⟨w, touches_refl t⟩, rfl, Or.inl rfl⟩

theorem pres_trans {a b c : Term} (h1 : Pres a b) (h2 : Pres b c) : Pres a c := by
  refine ⟨fun w => ?_, h2.2.1.trans h1.2.1, ?_⟩
  · obtain ⟨wb, tb⟩ := h1.1 w
    obtain ⟨wc, tc⟩ := h2.1 wb
    exact ⟨wc, touches_trans tb tc⟩
  · rcases h1.2.2 with hb | hb <;> rcases h2.2.2 with hc | hc
    · exact Or.inl (hc.trans hb)
    · right; intro hl
      have hb' : 0 < b.scrollLimit := by rw [h1.2.1]; exact hl
      have hcc := hc hb'
      rwa [h1.2.1] at hcc
    · right; intro hl; rw [hc]; exact hb hl
    · right; intro hl
      have hb' : 0 < b.scrollLimit := by rw [h1.2.1]; exact hl
      have hcc := hc hb'
      rwa [h1.2.1] at hcc

theorem hpres_refl (t : Term) : HPres t t := ⟨pres_refl t, rfl, rfl⟩

theorem hpres_trans {a b c : Term} (h1 : HPres a b) (h2 : HPres b c) : HPres a c :=
  ⟨pres_trans h1.1 h2.1, h2.2.1.trans h1.2.1, h2.2.2.trans h1.2.2⟩

theorem pres_of_fields {t t' : Term}
    (hg : t'.grid = t.grid) (ha : t'.altGrid = t.altGrid) (hi : t'.inAlt = t.inAlt)
    (hd : t'.dirty = t.dirty) (hr : t'.rows = t.rows)
    (hs : t'.scrollback = t.scrollback) (hl : t'.scrollLimit = t.scrollLimit) :
    Pres t t' := by
  have hvg : activeGrid t' = activeGrid t := by
    unfold activeGrid; rw [hg, ha, hi]
  refine ⟨fun w => ⟨?_, ?_⟩, hl, Or.inl hs⟩
  · exact ⟨hg ▸ hr ▸ w.1, ha ▸ hr ▸ w.2.1, hd ▸ hr ▸ w.2.2⟩
  · constructor
    · intro y hy
      unfold rowDirty at *
      rw [hd]; exact hy
    · intro y hy
      exact absurd (by unfold visRow; rw [hvg]) hy

theorem hpres_of_fields {t t' : Term}
    (hg : t'.grid = t.grid) (ha : t'.altGrid = t.altGrid) (hi : t'.inAlt = t.inAlt)
    (hd : t'.dirty = t.dirty) (hr : t'.rows = t.rows)
    (hs : t'.scrollback = t.scrollback) (hl : t'.scrollLimit = t.scrollLimit)
    (hp : t'.pacc = t.pacc) (hq : t'.pending = t.pending) : HPres t t' :=
  ⟨pres_of_fields hg ha hi hd hr hs hl, hp, hq⟩

theorem rowDirty_lt {t : Term} {y : Nat} (h : rowDirty t y = true) :
    y < t.dirty.length := by
  by_contra hge
  unfold rowDirty at h
  rw [List.getD_eq_default _ _ (Nat.le_of_not_lt hge)] at h
  exact Bool.false_ne_true h

theorem updGrid_dirty (t : Term) (m : Nat → Bool) (f : Nat → List Cell → List Cell) :
    (updGrid t m f).dirty =
      tabulate t.dirty.length (fun i => t.dirty.getD i false || m i) := by
  unfold updGrid setActiveGrid
  by_cases hi : t.inAlt = true <;> simp [hi]

theorem updGrid_activeGrid (t : Term) (m : Nat → Bool) (f : Nat → List Cell → List Cell) :
    activeGrid (updGrid t m f) =
      tabulate (activeGrid t).length
        (fun i => if m i then f i ((activeGrid t).getD i []) else (activeGrid t).getD i []) := by
  unfold updGrid setActiveGrid activeGrid
  by_cases hi : t.inAlt = true <;> simp [hi]

theorem updGrid_fields (t : Term) (m : Nat → Bool) (f : Nat → List Cell → List Cell) :
    (updGrid t m f).rows = t.rows ∧ (updGrid t m f).scrollback = t.scrollback ∧
    (updGrid t m f).scrollLimit = t.scrollLimit ∧ (updGrid t m f).pacc = t.pacc ∧
    (updGrid t m f).pending = t.pending ∧ (updGrid t m f).inAlt = t.inAlt := by
  unfold updGrid setActiveGrid
  by_cases hi : t.inAlt = true <;> simp [hi]

theorem updGrid_WF {t : Term} (w : WF t) (m : Nat → Bool) (f : Nat → List Cell → List Cell) :
    WF (updGrid t m f) := by
  unfold updGrid setActiveGrid activeGrid
  by_cases hi : t.inAlt = true <;>
    simp only [hi, if_true, if_false, Bool.false_eq_true] <;>
    exact ⟨by simp [tabulate_length, w.1], by simp [tabulate_length, w.2.1], by simp [tabulate_length, w.2.2]⟩

theorem updGrid_touches {t : Term} (w : WF t) (m : Nat → Bool)
    (f : Nat → List Cell → List Cell) : Touches t (updGrid t m f) := by
  have hd := updGrid_dirty t m f
  have hg := updGrid_activeGrid t m f
  have hlen : t.dirty.length = (activeGrid t).length := by
    unfold activeGrid
    by_cases hi : t.inAlt = true <;> simp [hi, w.1, w.2.1, w.2.2]
  constructor
  · intro y hy
    have hylt := rowDirty_lt hy
    unfold rowDirty at hy ⊢
    rw [hd, tabulate_getD, if_pos hylt, hy]
    simp
  · intro y hy
    unfold visRow at hy
    rw [hg] at hy
    unfold rowDirty
    rw [hd, tabulate_getD]
    by_cases hylt : y < (activeGrid t).length
    · rw [tabulate_getD, if_pos hylt] at hy
      have hm : m y = true := by
        by_contra hmf
        simp only [Bool.not_eq_true] at hmf
        rw [if_neg (by simp [hmf])] at hy
        exact hy rfl
      rw [if_pos (by omega), hm]
      simp
    · rw [tabulate_getD, if_neg hylt] at hy
      rw [List.getD_eq_default _ _ (Nat.le_of_not_lt hylt)] at hy
      exact absurd rfl hy

theorem hpres_updGrid (t : Term) (m : Nat → Bool) (f : Nat → List Cell → List Cell) :
    HPres t (updGrid t m f) := by
  obtain ⟨hr, hs, hl, hp, hq, _⟩ := updGrid_fields t m f
  exact ⟨⟨fun w => ⟨updGrid_WF w m f, updGrid_touches w m f⟩, hl, Or.inl hs⟩, hp, hq⟩

theorem hpres_push (t : Term) (row : List Cell) :
    HPres t { t with scrollback := pushSB t.scrollLimit t.scrollback row } :=
  ⟨⟨fun w => ⟨w, touches_refl t⟩, rfl,
    Or.inr (fun hl => pushSB_length_le hl _ _)⟩, rfl, rfl⟩

theorem hpres_cursorlike {t t' : Term}
    (hg : t'.grid = t.grid) (ha : t'.altGrid = t.altGrid) (hi : t'.inAlt = t.inAlt)
    (hd : t'.dirty = t.dirty) (hr : t'.rows = t.rows)
    (hs : t'.scrollback = t.scrollback) (hl : t'.scrollLimit = t.scrollLimit)
    (hp : t'.pacc = t.pacc) (hq : t'.pending = t.pending) : HPres t t' :=
  hpres_of_fields hg ha hi hd hr hs hl hp hq

theorem hpres_scrollUpOne (t : Term) : HPres t (scrollUpOne t) := by
  simp only [scrollUpOne]
  split
  · exact hpres_trans (hpres_push t _) (hpres_updGrid _ _ _)
  · exact hpres_updGrid _ _ _

theorem hpres_scrollDownOne (t : Term) : HPres t (scrollDownOne t) := by
  simp only [scrollDownOne]
  exact hpres_updGrid _ _ _

theorem hpres_lineFeed (t : Term) : HPres t (lineFeed t) := by
  simp only [lineFeed]
  split
  · refine hpres_trans ?_ (hpres_scrollUpOne _)
    exact hpres_cursorlike rfl rfl rfl rfl rfl rfl rfl rfl rfl
  · split
    · exact hpres_cursorlike rfl rfl rfl rfl rfl rfl rfl rfl rfl
    · exact hpres_cursorlike rfl rfl rfl rfl rfl rfl rfl rfl rfl

theorem hpres_reverseIndex (t : Term) : HPres t (reverseIndex t) := by
  simp only [reverseIndex]
  split
  · exact hpres_scrollDownOne _
  · split
    · exact hpres_cursorlike rfl rfl rfl rfl rfl rfl rfl rfl rfl
    · exact hpres_refl _

theorem hpres_wrapIfPending (t : Term) : HPres t (wrapIfPending t) := by
  simp only [wrapIfPending]
  split
  · refine hpres_trans ?_ (hpres_lineFeed _)
    exact hpres_cursorlike rfl rfl rfl rfl rfl rfl rfl rfl rfl
  · exact hpres_refl _

theorem hpres_wrapIfWide (w : Nat) (t : Term) : HPres t (wrapIfWide w t) := by
  simp only [wrapIfWide]
  split
  · refine hpres_trans ?_ (hpres_lineFeed _)
    exact hpres_cursorlike rfl rfl rfl rfl rfl rfl rfl rfl rfl
  · exact hpres_refl _

theorem hpres_placeGlyph (cp w : Nat) (t : Term) : HPres t (placeGlyph cp w t) := by
  simp only [placeGlyph]
  exact hpres_updGrid _ _ _

theorem hpres_advanceCursor (w : Nat) (t : Term) : HPres t (advanceCursor w t) := by
  simp only [advanceCursor]
  split
  · exact hpres_cursorlike rfl rfl rfl rfl rfl rfl rfl rfl rfl
  · exact hpres_cursorlike rfl rfl rfl rfl rfl rfl rfl rfl rfl

theorem hpres_applyPrint (t : Term) (cp : Nat) : HPres t (applyPrint t cp) := by
  simp only [applyPrint]
  split
  · exact hpres_updGrid _ _ _
  · exact hpres_trans (hpres_wrapIfPending t)
      (hpres_trans (hpres_wrapIfWide _ _)
        (hpres_trans (hpres_placeGlyph _ _ _) (hpres_advanceCursor _ _)))

theorem hpres_applyExecute (t : Term) (b : Nat) : HPres t (applyExecute t b) := by
  simp only [applyExecute]
  repeat' split
  all_goals
    first
      | exact hpres_lineFeed _
      | exact hpres_cursorlike rfl rfl rfl rfl rfl rfl rfl rfl rfl
      | exact hpres_refl _

theorem hpres_setCur (t : Term) (x y : Nat) : HPres t (setCur t x y) :=
  hpres_cursorlike rfl rfl rfl rfl rfl rfl rfl rfl rfl

theorem hpres_eraseLine (t : Term) (k : Nat) : HPres t (eraseLine t k) := by
  simp only [eraseLine]
  exact hpres_updGrid _ _ _

theorem hpres_eraseDisplay (t : Term) (k : Nat) : HPres t (eraseDisplay t k) := by
  simp only [eraseDisplay]
  repeat' split
  all_goals
    first
      | exact hpres_updGrid _ _ _
      | exact hpres_refl _

theorem hpres_enterAlt (t : Term) : HPres t (enterAlt t) := by
  simp only [enterAlt]
  split
  · exact hpres_refl t
  · rename_i hni
    have hfalse : t.inAlt = false := by
      cases hAlt : t.inAlt
      · rfl
      · exact absurd hAlt hni
    refine ⟨⟨fun w => ⟨?_, ?_, ?_⟩, rfl, Or.inl rfl⟩, rfl, rfl⟩
    · refine ⟨w.1, ?_, ?_⟩
      · show (blankGrid t).length = t.rows
        rw [blankGrid, mkBlankGrid, tabulate_length]
      · show (List.replicate t.dirty.length true).length = t.rows
        rw [List.length_replicate, w.2.2]
    · intro y hy
      have hylt := rowDirty_lt hy
      show (List.replicate t.dirty.length true).getD y false = true
      rw [getD_replicate, if_pos hylt]
    · intro y hy
      by_cases hylt : y < t.dirty.length
      · show (List.replicate t.dirty.length true).getD y false = true
        rw [getD_replicate, if_pos hylt]
      · exfalso
        apply hy
        have hR : visRow t y = t.grid.getD y [] := by
          unfold visRow activeGrid
          rw [hfalse]
          simp
        have hb1 : (blankGrid t).length ≤ y := by
          rw [blankGrid, mkBlankGrid, tabulate_length, ← w.2.2]; omega
        have hb2 : t.grid.length ≤ y := by rw [w.1, ← w.2.2]; omega
        show (blankGrid t).getD y [] = visRow t y
        rw [hR, List.getD_eq_default _ _ hb1, List.getD_eq_default _ _ hb2]

theorem hpres_leaveAlt (t : Term) : HPres t (leaveAlt t) := by
  simp only [leaveAlt]
  split
  · rename_i hAlt
    refine ⟨⟨fun w => ⟨?_, ?_, ?_⟩, rfl, Or.inl rfl⟩, rfl, rfl⟩
    · refine ⟨w.1, w.2.1, ?_⟩
      show (List.replicate t.dirty.length true).length = t.rows
      rw [List.length_replicate, w.2.2]
    · intro y hy
      have hylt := rowDirty_lt hy
      show (List.replicate t.dirty.length true).getD y false = true
      rw [getD_replicate, if_pos hylt]
    · intro y hy
      by_cases hylt : y < t.dirty.length
      · show (List.replicate t.dirty.length true).getD y false = true
        rw [getD_replicate, if_pos hylt]
      · exfalso
        apply hy
        have hR : visRow t y = t.altGrid.getD y [] := by
          unfold visRow activeGrid
          rw [hAlt]
          simp
        have hb1 : t.grid.length ≤ y := by rw [w.1, ← w.2.2]; omega
        have hb2 : t.altGrid.length ≤ y := by rw [w.2.1, ← w.2.2]; omega
        show t.grid.getD y [] = visRow t y
        rw [hR, List.getD_eq_default _ _ hb1, List.getD_eq_default _ _ hb2]
  · exact hpres_refl t

theorem hpres_setMode (t : Term) (n : Nat) (v : Bool) : HPres t (setMode t n v) := by
  simp only [setMode]
  repeat' split
  all_goals
    first
      | exact hpres_cursorlike rfl rfl rfl rfl rfl rfl rfl rfl rfl
      | exact hpres_enterAlt _
      | exact hpres_leaveAlt _
      | exact hpres_refl _

theorem hpres_setRegion (t : Term) (a b : Nat) : HPres t (setRegion t a b) := by
  simp only [setRegion, setCur]
  split
  · exact hpres_cursorlike rfl rfl rfl rfl rfl rfl rfl rfl rfl
  · exact hpres_refl _

theorem hpres_foldl {α : Type} {g : Term → α → Term} (hg : ∀ t a, HPres t (g t a)) :
    ∀ (l : List α) (t : Term), HPres t (List.foldl g t l) := by
  intro l
  induction l with
  | nil => intro t; exact hpres_refl t
  | cons a rest ih => intro t; exact hpres_trans (hg t a) (ih (g t a))

theorem hpres_applyCSI (t : Term) (priv : Bool) (ps : List (Option Nat))
    (inters : List Nat) (fin : Nat) : HPres t (applyCSI t priv ps inters fin) := by
  unfold applyCSI
  by_cases h1 : inters ≠ []
  · rw [if_pos h1]; exact hpres_refl _
  rw [if_neg h1]
  by_cases h2 : priv = true
  · rw [if_pos h2]
    by_cases h3 : fin = 0x68
    · rw [if_pos h3]
      exact hpres_foldl (fun u q => hpres_setMode u (q.getD 0) true) ps t
    rw [if_neg h3]
    by_cases h4 : fin = 0x6C
    · rw [if_pos h4]
      exact hpres_foldl (fun u q => hpres_setMode u (q.getD 0) false) ps t
    · rw [if_neg h4]; exact hpres_refl _
  rw [if_neg h2]
  by_cases hm : fin = 0x6D
  · rw [if_pos hm]; exact hpres_cursorlike rfl rfl rfl rfl rfl rfl rfl rfl rfl
  rw [if_neg hm]
  by_cases hH : fin = 0x48 ∨ fin = 0x66
  · rw [if_pos hH]; exact hpres_setCur _ _ _
  rw [if_neg hH]
  by_cases hA : fin = 0x41
  · rw [if_pos hA]; exact hpres_setCur _ _ _
  rw [if_neg hA]
  by_cases hB : fin = 0x42
  · rw [if_pos hB]; exact hpres_setCur _ _ _
  rw [if_neg hB]
  by_cases hC : fin = 0x43
  · rw [if_pos hC]; exact hpres_setCur _ _ _
  rw [if_neg hC]
  by_cases hD : fin = 0x44
  · rw [if_pos hD]; exact hpres_setCur _ _ _
  rw [if_neg hD]
  by_cases hG : fin = 0x47
  · rw [if_pos hG]; exact hpres_setCur _ _ _
  rw [if_neg hG]
  by_cases hd : fin = 0x64
  · rw [if_pos hd]; exact hpres_setCur _ _ _
  rw [if_neg hd]
  by_cases hJ : fin = 0x4A
  · rw [if_pos hJ]; exact hpres_eraseDisplay _ _
  rw [if_neg hJ]
  by_cases hK : fin = 0x4B
  · rw [if_pos hK]; exact hpres_eraseLine _ _
  rw [if_neg hK]
  by_cases hr : fin = 0x72
  · rw [if_pos hr]; exact hpres_setRegion _ _ _
  · rw [if_neg hr]; exact hpres_refl _

theorem hpres_applyEsc (t : Term) (inters : List Nat) (fin : Nat) :
    HPres t (applyEsc t inters fin) := by
  simp only [applyEsc]
  repeat' split
  all_goals
    first
      | exact hpres_cursorlike rfl rfl rfl rfl rfl rfl rfl rfl rfl
      | exact hpres_lineFeed _
      | exact hpres_reverseIndex _
      | (refine hpres_trans ?_ (hpres_lineFeed _)
         exact hpres_cursorlike rfl rfl rfl rfl rfl rfl rfl rfl rfl)
      | exact hpres_refl _

theorem hpres_applyAction (t : Term) (a : Action) : HPres t (applyAction t a) := by
  cases a with
  | print cp => exact hpres_applyPrint t cp
  | execute b => exact hpres_applyExecute t b
  | csi priv ps inters fin => exact hpres_applyCSI t priv ps inters fin
  | osc payload => exact hpres_refl t
  | esc inters fin => exact hpres_applyEsc t inters fin

theorem pres_foldl {α : Type} {g : Term → α → Term} (hg : ∀ t a, Pres t (g t a)) :
    ∀ (l : List α) (t : Term), Pres t (List.foldl g t l) := by
  intro l
  induction l with
  | nil => intro t; exact pres_refl t
  | cons a rest ih => intro t; exact pres_trans (hg t a) (ih (g t a))

theorem pres_applyUnit (t : Term) (u : VtUnit) : Pres t (applyUnit t u) := by
  simp only [applyUnit]
  refine pres_trans ?_ ((hpres_foldl hpres_applyAction _ _).1)
  exact pres_of_fields rfl rfl rfl rfl rfl rfl rfl

theorem pres_stepByte (t : Term) (b : Nat) : Pres t (stepByte t b) := by
  simp only [stepByte]
  refine pres_trans ?_ (pres_foldl pres_applyUnit _ _)
  exact pres_of_fields rfl rfl rfl rfl rfl rfl rfl

theorem pres_writeBytes (t : Term) (bs : List Nat) : Pres t (writeBytes t bs) :=
  pres_foldl pres_stepByte bs t

theorem applyUnit_state (t : Term) (u : VtUnit) :
    (applyUnit t u).pacc = (parserStep t.pacc u).1 ∧
    (applyUnit t u).pending = t.pending := by
  simp only [applyUnit]
  exact (hpres_foldl hpres_applyAction _ _).2

theorem WF_termNewWithConfig (c r : Nat) (cfg : Config) :
    WF (termNewWithConfig c r cfg) := by
  unfold termNewWithConfig WF mkBlankGrid
  simp [tabulate_length]

theorem WF_clearDirty {t : Term} (w : WF t) : WF (clearDirtyT t) :=
  ⟨w.1, w.2.1, by simp [clearDirtyT, List.length_replicate, w.2.2]⟩

theorem parserStep_can (a : PAcc) :
    (parserStep a (.control 0x18)).1.pstate = .ground := by
  cases hps : a.pstate <;> simp [parserStep, hps, paccGround]

theorem stepByte_can (t : Term) :
    (stepByte t 0x18).pacc.pstate = .ground ∧ (stepByte t 0x18).pending = [] := by
  simp only [stepByte]
  cases hp : t.pending with
  | nil =>
    have e1 : utf8Step [] 0x18 = ([VtUnit.control 0x18], []) := rfl
    rw [e1]
    simp only [List.foldl_cons, List.foldl_nil]
    refine ⟨?_, ?_⟩
    · rw [(applyUnit_state _ _).1]
      exact parserStep_can _
    · exact (applyUnit_state _ _).2
  | cons p ps =>
    have e1 : utf8Step (p :: ps) 0x18 =
        ([VtUnit.scalar 0xFFFD, VtUnit.control 0x18], []) := by
      simp [utf8Step, utf8Fresh]
    rw [e1]
    simp only [List.foldl_cons, List.foldl_nil]
    refine ⟨?_, ?_⟩
    · rw [(applyUnit_state _ _).1]
      exact parserStep_can _
    · rw [(applyUnit_state _ _).2, (applyUnit_state _ _).2]

theorem updGrid_rowDirty_frame (t : Term) (m : Nat → Bool)
    (f : Nat → List Cell → List Cell) (y : Nat) (hm : m y = false) :
    rowDirty (updGrid t m f) y = rowDirty t y := by
  unfold rowDirty
  rw [updGrid_dirty, tabulate_getD]
  by_cases hy : y < t.dirty.length
  · rw [if_pos hy, hm, Bool.or_false]
  · rw [if_neg hy, List.getD_eq_default _ _ (Nat.le_of_not_lt hy)]

theorem rowDirty_clear (t : Term) (y : Nat) : rowDirty (clearDirtyT t) y = false := by
  show (List.replicate t.dirty.length false).getD y false = false
  rw [getD_replicate]
  split <;> rfl

theorem eraseLine_frame (t : Term) (k y : Nat) (hy : y ≠ t.cur.y) :
    rowDirty (eraseLine t k) y = rowDirty t y := by
  unfold eraseLine
  exact updGrid_rowDirty_frame _ _ _ y (by simp [hy])

theorem applyPrint_frame (t : Term) (b y : Nat) (hw1 : charWidth b = 1)
    (hpw : t.cur.pendingWrap = false) (hy : y ≠ t.cur.y) :
    rowDirty (applyPrint t b) y = rowDirty t y := by
  have e1 : wrapIfPending t = t := by
    unfold wrapIfPending
    rw [hpw]
    simp
  have e2 : wrapIfWide 1 t = t := by
    unfold wrapIfWide
    simp
  unfold applyPrint
  rw [hw1, if_neg (by decide : ¬(1 = 0)), e1, e2]
  have e3 : ∀ u : Term, rowDirty (advanceCursor 1 u) y = rowDirty u y := by
    intro u
    unfold advanceCursor rowDirty
    split <;> rfl
  rw [e3]
  unfold placeGlyph
  exact updGrid_rowDirty_frame _ _ _ y (by simp [hy])

theorem stepByte_printable_frame (t : Term) (b y : Nat) (hp : t.pacc = paccGround)
    (hq : t.pending = []) (hpw : t.cur.pendingWrap = false)
    (hb1 : 0x20 ≤ b) (hb2 : b ≤ 0x7E) (hy : y ≠ t.cur.y) :
    rowDirty (stepByte t b) y = rowDirty t y := by
  have h1 : utf8Step [] b = ([VtUnit.scalar b], []) := by
    show utf8Fresh b = _
    unfold utf8Fresh
    rw [if_neg (by omega), if_pos (by omega)]
  have hw : charWidth b = 1 := by
    unfold charWidth
    rw [if_neg (by omega), if_neg (by omega)]
  unfold stepByte
  rw [hq, h1]
  simp only [List.foldl_cons, List.foldl_nil]
  unfold applyUnit
  have hpacc : ({ t with pending := [] } : Term).pacc = paccGround := hp
  rw [hpacc]
  show rowDirty (applyPrint { t with pending := [], pacc := paccGround } b) y = rowDirty t y
  rw [applyPrint_frame { t with pending := [], pacc := paccGround } b y hw hpw hy]
  rfl

theorem stepByte_cr_frame (t : Term) (y : Nat) (hq : t.pending = []) :
    rowDirty (stepByte t 0x0D) y = rowDirty t y := by
  unfold stepByte
  rw [hq]
  have h1 : utf8Step [] 0x0D = ([VtUnit.control 0x0D], []) := rfl
  rw [h1]
  simp only [List.foldl_cons, List.foldl_nil]
  unfold applyUnit
  cases hps : t.pacc.pstate <;>
    simp [parserStep, hps, applyAction, applyExecute, rowDirty, paccGround]

theorem writeBytes_el_frame (t : Term) (y : Nat) (hp : t.pacc = paccGround)
    (hq : t.pending = []) (hy : y ≠ t.cur.y) :
    rowDirty (writeBytes t [27, 91, 75]) y = rowDirty t y := by
  have heq : writeBytes t [27, 91, 75] =
      eraseLine { t with pacc := paccGround, pending := [] } 0 := by
    simp [writeBytes, stepByte, utf8Step, utf8Fresh, leadLen, applyUnit, parserStep,
      escScalar, csiScalar, applyAction, applyCSI, pArg, paccGround, hp, hq]
  rw [heq]
  rw [eraseLine_frame { t with pacc := paccGround, pending := [] } 0 y hy]
  rfl

/-!  The claims. -/

/-- Claim C1: for every byte sequence and every partition of it into
consecutive chunks, writing the whole sequence once and writing the chunks
in order on an identically constructed terminal yield the same final
terminal state (grid, cursor, dirty rows — the states are equal outright):
decoder and parser state, including partial UTF-8 and escape sequences, is
carried across write boundaries. -/
theorem c1_chunked_write_equals_whole_write :
    ∀ (t : Term) (chunks : List (List Nat)),
      List.foldl writeBytes t chunks = writeBytes t chunks.flatten ∧
      List.foldl ghostty_terminal_write (some t) chunks =
        ghostty_terminal_write (some t) chunks.flatten := by
  have key : ∀ (chunks : List (List Nat)) (t : Term),
      List.foldl writeBytes t chunks = writeBytes t chunks.flatten := by
    intro chunks
    induction chunks with
    | nil => intro t; rfl
    | cons c rest ih =>
      intro t
      rw [List.foldl_cons, List.flatten_cons, ih]
      unfold writeBytes
      rw [List.foldl_append]
  have key2 : ∀ (chunks : List (List Nat)) (t : Term),
      List.foldl ghostty_terminal_write (some t) chunks =
        some (List.foldl writeBytes t chunks) := by
    intro chunks
    induction chunks with
    | nil => intro t; rfl
    | cons c rest ih =>
      intro t
      rw [List.foldl_cons, List.foldl_cons]
      exact ih (writeBytes t c)
  intro t chunks
  refine ⟨key chunks t, ?_⟩
  rw [key2 chunks t, key chunks t]
  rfl

/-- Claim C2: ghostty_terminal_write is total on arbitrary byte input (in
the model it is a total function, and on a valid handle it always returns a
valid handle, never a failure); moreover no input desynchronizes the
parser: after any byte sequence, a single CAN control byte (0x18) — which a
malformed sequence is at worst followed by — leaves the parser in Ground
with no pending decoder bytes, so parsing resumes cleanly on the next
byte. -/
theorem c2_write_total_and_recovers :
    ∀ (t : Term) (bs : List Nat),
      ghostty_terminal_write (some t) bs = some (writeBytes t bs) ∧
      (writeBytes t (bs ++ [0x18])).pacc.pstate = PState.ground ∧
      (writeBytes t (bs ++ [0x18])).pending = [] := by
  intro t bs
  refine ⟨rfl, ?_, ?_⟩
  · unfold writeBytes
    rw [List.foldl_append]
    simp only [List.foldl_cons, List.foldl_nil]
    exact (stepByte_can _).1
  · unfold writeBytes
    rw [List.foldl_append]
    simp only [List.foldl_cons, List.foldl_nil]
    exact (stepByte_can _).2

/-- Claim C3: for every terminal with a valid handle, every in-range row
index and every buffer of at least `cols` cells, ghostty_terminal_get_line
writes exactly `cols` cells (padding with empty cells beyond buffer
content) and returns `cols` — never more and never fewer — regardless of
the terminal's contents. -/
theorem c3_get_line_exactly_cols (t : Term) (y : Int) (n : Nat)
    (h0 : 0 ≤ y) (h1 : y.toNat < t.rows) (h2 : t.cols ≤ n) :
    (ghostty_terminal_get_line (some t) y n).1 = t.cols ∧
    (ghostty_terminal_get_line (some t) y n).2.length = t.cols := by
  simp only [ghostty_terminal_get_line]
  rw [if_pos ⟨h0, h1, h2⟩]
  exact ⟨rfl, by simp [lineCells, tabulate_length]⟩

/-- Witness for C3 at a concrete terminal, row and buffer size. -/
theorem c3_get_line_exactly_cols_witness :
    (ghostty_terminal_get_line (some (termNew 2 2)) 0 5).1 = (termNew 2 2).cols ∧
    (ghostty_terminal_get_line (some (termNew 2 2)) 0 5).2.length = (termNew 2 2).cols :=
  c3_get_line_exactly_cols (termNew 2 2) 0 5 (by decide) (by decide) (by decide)

/-- Claim C4: with a positive configured capacity N, the scrollback length
never exceeds N after any sequence of writes on a freshly constructed
terminal; the construction takes the configured capacity verbatim (0 is
never silently replaced by the implicit 10000 default); the scrollback
store is FIFO — pushing M rows through capacity N retains exactly the most
recent min(M, N) rows — and capacity 0 is unbounded (every pushed row is
retained). -/
theorem c4_scrollback_bounded_fifo :
    (∀ (c r : Nat) (cfg : Config) (bs : List Nat), 0 < cfg.scrollback_limit →
        (writeBytes (termNewWithConfig c r cfg) bs).scrollback.length ≤
          cfg.scrollback_limit) ∧
    (∀ (c r : Nat) (cfg : Config),
        (termNewWithConfig c r cfg).scrollLimit = cfg.scrollback_limit) ∧
    (∀ (n : Nat) (rs : List (List Cell)), 0 < n →
        List.foldl (pushSB n) [] rs = rs.drop (rs.length - n)) ∧
    (∀ (rs sb : List (List Cell)), List.foldl (pushSB 0) sb rs = sb ++ rs) := by
  refine ⟨?_, fun c r cfg => rfl, ?_, foldl_pushSB_zero⟩
  · intro c r cfg bs hpos
    have hp := pres_writeBytes (termNewWithConfig c r cfg) bs
    rcases hp.2.2 with he | hb
    · rw [he]
      exact Nat.zero_le _
    · exact hb hpos
  · intro n rs hn
    have h := foldl_pushSB hn rs [] (by simp)
    simpa using h

/-- Witness for C4 at concrete capacities, writes and row lists. -/
theorem c4_scrollback_bounded_fifo_witness :
    (writeBytes (termNewWithConfig 2 2 ⟨1, 0, 0⟩) [10, 10, 10]).scrollback.length ≤ 1 ∧
    List.foldl (pushSB 2) ([] : List (List Cell)) [[], [], []] = [[], []] ∧
    List.foldl (pushSB 0) ([[]] : List (List Cell)) [[], []] = [[]] ++ [[], []] := by
  refine ⟨c4_scrollback_bounded_fifo.1 2 2 ⟨1, 0, 0⟩ [10, 10, 10] (by decide), ?_,
    c4_scrollback_bounded_fifo.2.2.2 [[], []] [[]]⟩
  have h := c4_scrollback_bounded_fifo.2.2.1 2 [[], [], []] (by decide)
  simpa using h

/-- Claim C5: immediately after ghostty_terminal_clear_dirty every row
reports dirty = false; any write that changes the content of a row since
the clear makes that row report dirty = true (the engine also flags rows it
merely touches); and every row continues to report false until a mutation
touching that row: the empty write mutates nothing (queries are pure and
cannot set flags), and a write that does not touch row y leaves row y's
flag unchanged — printing a glyph touches only the cursor's row (every
other row keeps its flag, and after a clear still reports false), a
carriage return touches no row at all, and erase-in-line (CSI K) touches
only the cursor's row. -/
theorem c5_dirty_tracking :
    (∀ (t : Term) (y : Int),
        ghostty_terminal_is_row_dirty (ghostty_terminal_clear_dirty (some t)) y = false) ∧
    (∀ (t : Term) (bs : List Nat) (y : Nat), WF t →
        visRow (writeBytes (clearDirtyT t) bs) y ≠ visRow (clearDirtyT t) y →
        rowDirty (writeBytes (clearDirtyT t) bs) y = true) ∧
    (∀ t : Term, writeBytes t [] = t) ∧
    (∀ (t : Term) (b y : Nat), t.pacc = paccGround → t.pending = [] →
        t.cur.pendingWrap = false → 0x20 ≤ b → b ≤ 0x7E → y ≠ t.cur.y →
        rowDirty (writeBytes t [b]) y = rowDirty t y) ∧
    (∀ (t : Term) (b y : Nat), t.pacc = paccGround → t.pending = [] →
        t.cur.pendingWrap = false → 0x20 ≤ b → b ≤ 0x7E → y ≠ t.cur.y →
        rowDirty (writeBytes (clearDirtyT t) [b]) y = false) ∧
    (∀ (t : Term) (y : Nat), t.pending = [] →
        rowDirty (writeBytes t [0x0D]) y = rowDirty t y) ∧
    (∀ (t : Term) (y : Nat), t.pacc = paccGround → t.pending = [] → y ≠ t.cur.y →
        rowDirty (writeBytes t [27, 91, 75]) y = rowDirty t y) := by
  refine ⟨?_, ?_, fun t => rfl, ?_, ?_, ?_, ?_⟩
  · intro t y
    show (decide (0 ≤ y) &&
      (List.replicate t.dirty.length false).getD y.toNat false) = false
    rw [getD_replicate]
    split <;> simp
  · intro t bs y w hvis
    have hp := pres_writeBytes (clearDirtyT t) bs
    exact (hp.1 (WF_clearDirty w)).2.2 y hvis
  · intro t b y hp hq hpw hb1 hb2 hy
    exact stepByte_printable_frame t b y hp hq hpw hb1 hb2 hy
  · intro t b y hp hq hpw hb1 hb2 hy
    have hfr := stepByte_printable_frame (clearDirtyT t) b y hp hq hpw hb1 hb2 hy
    exact hfr.trans (rowDirty_clear t y)
  · intro t y hq
    exact stepByte_cr_frame t y hq
  · intro t y hp hq hy
    exact writeBytes_el_frame t y hp hq hy

/-- Witness for C5 at a concrete terminal and writes: a glyph printed on
row 0 leaves row 1's flag untouched (clean after a clear), a carriage
return leaves every flag untouched, and erase-in-line leaves row 1's flag
untouched. -/
theorem c5_dirty_tracking_witness :
    ghostty_terminal_is_row_dirty (ghostty_terminal_clear_dirty (some (termNew 2 2))) 0 = false ∧
    rowDirty (writeBytes (clearDirtyT (termNew 2 2)) [65]) 0 = true ∧
    writeBytes (termNew 2 2) [] = termNew 2 2 ∧
    rowDirty (writeBytes (termNew 2 2) [65]) 1 = rowDirty (termNew 2 2) 1 ∧
    rowDirty (writeBytes (clearDirtyT (termNew 2 2)) [65]) 1 = false ∧
    rowDirty (writeBytes (termNew 2 2) [13]) 0 = rowDirty (termNew 2 2) 0 ∧
    rowDirty (writeBytes (termNew 2 2) [27, 91, 75]) 1 = rowDirty (termNew 2 2) 1 :=
  ⟨c5_dirty_tracking.1 (termNew 2 2) 0,
   c5_dirty_tracking.2.1 (termNew 2 2) [65] 0 (WF_termNewWithConfig 2 2 defaultConfig)
     (by decide),
   c5_dirty_tracking.2.2.1 (termNew 2 2),
   c5_dirty_tracking.2.2.2.1 (termNew 2 2) 65 1 rfl rfl rfl (by decide) (by decide)
     (by decide),
   c5_dirty_tracking.2.2.2.2.1 (termNew 2 2) 65 1 rfl rfl rfl (by decide) (by decide)
     (by decide),
   c5_dirty_tracking.2.2.2.2.2.1 (termNew 2 2) 0 rfl,
   c5_dirty_tracking.2.2.2.2.2.2 (termNew 2 2) 1 rfl rfl (by decide)⟩

/-- Claim C6: from any terminal state that is parsing from Ground with no
pending decoder bytes and is on the primary screen, writing the
alternate-screen enter sequence (CSI ? 1049 h) followed immediately by the
leave sequence (CSI ? 1049 l) restores the primary grid, the cursor
(position, visibility, pending-wrap) and the pen attributes exactly to
their pre-entry values and lands back on the primary screen; after the
enter sequence alone, the alternate screen is active and its grid is
blank. -/
theorem c6_alt_screen_roundtrip (t : Term)
    (hp : t.pacc = paccGround) (hq : t.pending = []) (ha : t.inAlt = false) :
    (writeBytes t [27, 91, 63, 49, 48, 52, 57, 104,
                   27, 91, 63, 49, 48, 52, 57, 108]).grid = t.grid ∧
    (writeBytes t [27, 91, 63, 49, 48, 52, 57, 104,
                   27, 91, 63, 49, 48, 52, 57, 108]).cur = t.cur ∧
    (writeBytes t [27, 91, 63, 49, 48, 52, 57, 104,
                   27, 91, 63, 49, 48, 52, 57, 108]).pen = t.pen ∧
    (writeBytes t [27, 91, 63, 49, 48, 52, 57, 104,
                   27, 91, 63, 49, 48, 52, 57, 108]).inAlt = false ∧
    (writeBytes t [27, 91, 63, 49, 48, 52, 57, 104]).inAlt = true ∧
    (writeBytes t [27, 91, 63, 49, 48, 52, 57, 104]).altGrid = blankGrid t := by
  refine ⟨?_, ?_, ?_, ?_, ?_, ?_⟩ <;>
    simp [writeBytes, stepByte, utf8Step, utf8Fresh, leadLen, applyUnit, parserStep,
      escScalar, csiScalar, applyAction, applyCSI, setMode, enterAlt, leaveAlt,
      markAllDirty, paccGround, blankGrid, mkBlankGrid, hp, hq, ha]

/-- Witness for C6 on a concretely constructed terminal. -/
theorem c6_alt_screen_roundtrip_witness :
    (writeBytes (termNew 2 2) [27, 91, 63, 49, 48, 52, 57, 104,
                               27, 91, 63, 49, 48, 52, 57, 108]).grid = (termNew 2 2).grid ∧
    (writeBytes (termNew 2 2) [27, 91, 63, 49, 48, 52, 57, 104]).inAlt = true :=
  ⟨(c6_alt_screen_roundtrip (termNew 2 2) rfl rfl rfl).1,
   (c6_alt_screen_roundtrip (termNew 2 2) rfl rfl rfl).2.2.2.2.1⟩

/-- Claim C7: resize to any dimensions of at least 1x1 preserves existing
cells top-aligned (no rewrapping: cell (y, x) is unchanged for every
in-range position, with empty-cell padding where no content existed), gives
every visible row exactly the new column count, clamps the cursor into the
new bounds, leaves the scroll region valid for the new row count, and keeps
the scrollback exactly as it was (dropped content never enters it). -/
theorem c7_resize_truncate_pad (t : Term) (c r : Nat) (hc : 1 ≤ c) (hr : 1 ≤ r) :
    (∀ y x, y < r → x < c → cellAt (resizeTerm t c r) y x = cellAt t y x) ∧
    (∀ y, y < r → (visRow (resizeTerm t c r) y).length = c) ∧
    (resizeTerm t c r).cur.x = min t.cur.x (c - 1) ∧
    (resizeTerm t c r).cur.y = min t.cur.y (r - 1) ∧
    (resizeTerm t c r).regTop ≤ (resizeTerm t c r).regBottom ∧
    (resizeTerm t c r).regBottom < r ∧
    (resizeTerm t c r).scrollback = t.scrollback ∧
    (resizeTerm t c r).cols = c ∧ (resizeTerm t c r).rows = r := by
  have hc2 : max 1 c = c := Nat.max_eq_right hc
  have hr2 : max 1 r = r := Nat.max_eq_right hr
  refine ⟨?_, ?_, ?_, ?_, ?_, ?_, rfl, ?_, ?_⟩
  · intro y x hy hx
    unfold cellAt visRow activeGrid resizeTerm
    by_cases hi : t.inAlt = true <;>
      simp only [hi, if_true, Bool.false_eq_true, if_false, hc2, hr2] <;>
      rw [tabulate_getD, if_pos hy, tabulate_getD, if_pos hx]
  · intro y hy
    unfold visRow activeGrid resizeTerm
    by_cases hi : t.inAlt = true <;>
      simp only [hi, if_true, Bool.false_eq_true, if_false, hc2, hr2] <;>
      rw [tabulate_getD, if_pos hy, tabulate_length]
  · show min t.cur.x (max 1 c - 1) = min t.cur.x (c - 1)
    rw [hc2]
  · show min t.cur.y (max 1 r - 1) = min t.cur.y (r - 1)
    rw [hr2]
  · show (if t.regTop ≤ t.regBottom ∧ t.regBottom < max 1 r then t.regTop else 0) ≤
      (if t.regTop ≤ t.regBottom ∧ t.regBottom < max 1 r then t.regBottom else max 1 r - 1)
    split
    · rename_i hv; exact hv.1
    · exact Nat.zero_le _
  · show (if t.regTop ≤ t.regBottom ∧ t.regBottom < max 1 r then t.regBottom else max 1 r - 1) < r
    rw [hr2]
    split
    · rename_i hv; exact hv.2
    · omega
  · show max 1 c = c
    exact hc2
  · show max 1 r = r
    exact hr2

/-- Witness for C7 at a concrete terminal and target size. -/
theorem c7_resize_truncate_pad_witness :
    cellAt (resizeTerm (termNew 3 3) 2 2) 0 0 = cellAt (termNew 3 3) 0 0 ∧
    (visRow (resizeTerm (termNew 3 3) 2 2) 0).length = 2 ∧
    (resizeTerm (termNew 3 3) 2 2).scrollback = (termNew 3 3).scrollback ∧
    (resizeTerm (termNew 3 3) 2 2).cols = 2 :=
  ⟨(c7_resize_truncate_pad (termNew 3 3) 2 2 (by decide) (by decide)).1 0 0
      (by decide) (by decide),
   (c7_resize_truncate_pad (termNew 3 3) 2 2 (by decide) (by decide)).2.1 0 (by decide),
   (c7_resize_truncate_pad (termNew 3 3) 2 2 (by decide) (by decide)).2.2.2.2.2.2.1,
   (c7_resize_truncate_pad (termNew 3 3) 2 2 (by decide) (by decide)).2.2.2.2.2.2.2.1⟩

/-- Counterexample to C8 as stated: the unimplemented scrollback-line read
returns the very same (-1, nothing-written) sentinel that an out-of-range
ghostty_terminal_get_line query returns, so the "not available" result is
NOT distinguishable from the out-of-range error result. -/
theorem c8_counterexample :
    ghostty_terminal_get_scrollback_line (some (termNew 80 24)) 0 80 = (-1, []) ∧
    ghostty_terminal_get_line (some (termNew 80 24)) 999 80 = (-1, []) ∧
    ghostty_terminal_get_scrollback_line (some (termNew 80 24)) 0 80 =
      ghostty_terminal_get_line (some (termNew 80 24)) 999 80 := by
  decide

/-- Amended C8: ghostty_terminal_get_scrollback_line always returns the -1
error sentinel (the header documents it as not implemented), and that is
the same result ghostty_terminal_get_line produces for any out-of-range
query — the two conditions are not distinguishable by return value. -/
theorem c8_amended_same_sentinel :
    (∀ (t : Option Term) (y : Int) (n : Nat),
        ghostty_terminal_get_scrollback_line t y n = (-1, [])) ∧
    (∀ (t : Term) (y : Int) (n : Nat), ¬(0 ≤ y ∧ y.toNat < t.rows ∧ t.cols ≤ n) →
        ghostty_terminal_get_line (some t) y n =
          ghostty_terminal_get_scrollback_line (some t) y n) := by
  refine ⟨fun t y n => rfl, ?_⟩
  intro t y n hout
  show (if 0 ≤ y ∧ y.toNat < t.rows ∧ t.cols ≤ n then _ else _) = _
  rw [if_neg hout]
  rfl

/-- Witness for the amended C8 at a concrete out-of-range query. -/
theorem c8_amended_same_sentinel_witness :
    ghostty_terminal_get_scrollback_line none 0 0 = (-1, []) ∧
    ghostty_terminal_get_line (some (termNew 2 2)) 7 2 =
      ghostty_terminal_get_scrollback_line (some (termNew 2 2)) 7 2 :=
  ⟨c8_amended_same_sentinel.1 none 0 0,
   c8_amended_same_sentinel.2 (termNew 2 2) 7 2 (by decide)⟩

/-- Claim C9: SGR reset (CSI 0 m) yields the default pen, so any following
print produces a cell with an empty style flag set and the terminal's
configured default foreground and background; concretely, on a fresh 80x24
terminal, writing "A ESC [31m B ESC [0m C" gives row 0 cells 0..2 as A with
default colors, B with red (0xFF0000) foreground and default background, C
with default colors, and the cursor at column 3 of row 0. -/
theorem c9_sgr_reset_and_example :
    (∀ (p : Pen) (dFg dBg : Rgb) (cp w : Nat),
        (resolveCell (applySGR [some 0] p) dFg dBg cp w).flags = 0 ∧
        (resolveCell (applySGR [some 0] p) dFg dBg cp w).fg = dFg ∧
        (resolveCell (applySGR [some 0] p) dFg dBg cp w).bg = dBg) ∧
    cellAt (writeBytes (termNew 80 24) [65, 27, 91, 51, 49, 109, 66, 27, 91, 48, 109, 67]) 0 0 =
      { codepoint := 65, fg := (255, 255, 255), bg := (0, 0, 0), flags := 0, width := 1 } ∧
    cellAt (writeBytes (termNew 80 24) [65, 27, 91, 51, 49, 109, 66, 27, 91, 48, 109, 67]) 0 1 =
      { codepoint := 66, fg := (255, 0, 0), bg := (0, 0, 0), flags := 0, width := 1 } ∧
    cellAt (writeBytes (termNew 80 24) [65, 27, 91, 51, 49, 109, 66, 27, 91, 48, 109, 67]) 0 2 =
      { codepoint := 67, fg := (255, 255, 255), bg := (0, 0, 0), flags := 0, width := 1 } ∧
    (writeBytes (termNew 80 24) [65, 27, 91, 51, 49, 109, 66, 27, 91, 48, 109, 67]).cur.x = 3 ∧
    (writeBytes (termNew 80 24) [65, 27, 91, 51, 49, 109, 66, 27, 91, 48, 109, 67]).cur.y = 0 := by
  refine ⟨fun p dFg dBg cp w => ⟨rfl, rfl, rfl⟩, ?_, ?_, ?_, ?_, ?_⟩ <;> decide

/-- Claim C10: the public entry points tolerate a NULL terminal handle:
freeing NULL is a safe no-op, and the dimension and cursor-position queries
return 0 on a NULL handle. -/
theorem c10_null_handle_tolerance :
    ghostty_terminal_free none = () ∧
    ghostty_terminal_get_cols none = 0 ∧
    ghostty_terminal_get_rows none = 0 ∧
    ghostty_terminal_get_cursor_x none = 0 ∧
    ghostty_terminal_get_cursor_y none = 0 :=
  ⟨rfl, rfl, rfl, rfl, rfl⟩

end GhosttyVT
